import Mathlib

/-!
Shallow embedding of the API-documentation extraction core of this
repository (the file tasks/util/docs.py): the Rust-module analyzer
(analyze_rust_module / describe_rust_api) and the marker-delimited
insertion step (insert_api_docs).

Modelling conventions:
* A file's content is a list of lines, each line given without its
  trailing newline character (Python's readlines keeps the newline, but
  every use in the source either strips it or is insensitive to it; the
  one place the newline would travel, the header-accumulation loop, is
  modelled explicitly below).
* os.linesep is modelled as "\n" (POSIX).
* Python string operations (strip, lstrip, startswith, substring
  containment) are re-implemented over List Char, restricted to ASCII
  whitespace, matching Python's behaviour on the inputs the analyzer
  sees.
* Python exceptions are modelled with Except; an infinite loop is
  modelled with an explicit fuel parameter (none = the loop has not
  finished within the given fuel).
-/

namespace Docs

/-- Python str.strip / str.lstrip whitespace set (ASCII part): space, tab,
newline, carriage return, vertical tab, form feed. -/
def pyIsSpace (c : Char) : Bool :=
  c = ' ' || c = '\t' || c = '\n' || c = '\r' || c = '\x0b' || c = '\x0c'

/-- Word character for Python's regex \w (ASCII part): letters, digits,
underscore. -/
def isWordChar (c : Char) : Bool :=
  c.isAlpha || c.isDigit || c = '_'

/-- Python s.lstrip(): drop leading whitespace. -/
def pylstrip (s : String) : String :=
  (s.toList.dropWhile pyIsSpace).asString

/-- Python s.strip(): drop leading and trailing whitespace. -/
def pystrip (s : String) : String :=
  (((s.toList.dropWhile pyIsSpace).reverse.dropWhile pyIsSpace).reverse).asString

/-- Python s.lstrip(chars): drop leading characters drawn from the given set. -/
def pylstripChars (cs : List Char) (s : String) : String :=
  (s.toList.dropWhile (fun c => cs.contains c)).asString

/-- Python s.rstrip(chars): drop trailing characters drawn from the given set. -/
def pyrstripChars (cs : List Char) (s : String) : String :=
  ((s.toList.reverse.dropWhile (fun c => cs.contains c)).reverse).asString

/-- Prefix test over character lists (Python str.startswith). -/
def pyIsPrefixChars : List Char → List Char → Bool
  | [], _ => true
  | _ :: _, [] => false
  | c :: cs, d :: ds => c = d && pyIsPrefixChars cs ds

/-- Python sub in s for character lists: sub occurs contiguously in s. -/
def pyIsInfixChars : List Char → List Char → Bool
  | p, [] => p.isEmpty
  | p, c :: rest => pyIsPrefixChars p (c :: rest) || pyIsInfixChars p rest

/-- Python pre in s restricted to a prefix position (str.startswith). -/
def pystartswith (p s : String) : Bool :=
  pyIsPrefixChars p.toList s.toList

/-- Python sub in s (substring containment). -/
def pycontains (p s : String) : Bool :=
  pyIsInfixChars p.toList s.toList

/-- Python sep.join(parts). -/
def pyjoin (sep : String) : List String → String
  | [] => ""
  | [x] => x
  | x :: y :: xs => x ++ sep ++ pyjoin sep (y :: xs)

example : pystrip "  a b \t" = "a b" := by decide
example : pylstrip "  x" = "x" := by decide
example : pycontains "nee" "a needle" = true := by decide
example : pycontains "zz" "a needle" = false := by decide
example : pyjoin "\n" ["a", "b", "c"] = "a\nb\nc" := by decide
example : pylstripChars ['/', '!'] "//! hi" = " hi" := by decide
example : pyrstripChars ['_'] "type_" = "type" := by decide
example : pystartswith "pub fn" "pub fn f() \x7b" = true := by decide

/-- Helper for the word-boundary self test: does the character list begin
with "elf" followed by a word boundary (end of string or a non-word
character)? -/
def matchElfBoundary : List Char → Bool
  | 'e' :: 'l' :: 'f' :: rest =>
    match rest with
    | [] => true
    | c :: _ => !isWordChar c
  | _ => false

/-- Scan for an occurrence of the word "self" with word boundaries on both
sides; prevWord records whether the previous character was a word
character (false at the start of the string). -/
def hasWordSelfAux : Bool → List Char → Bool
  | _, [] => false
  | prevWord, c :: rest =>
    if c = 's' && !prevWord && matchElfBoundary rest then true
    else hasWordSelfAux (isWordChar c) rest

/-- Python re.search(r'\bself\b', s): the line mentions self as a whole
word (used by the source to skip methods). -/
def hasWordSelf (s : String) : Bool :=
  hasWordSelfAux false s.toList

example : hasWordSelf "pub fn f(&self) \x7b" = true := by decide
example : hasWordSelf "pub fn f(selfish: i32) \x7b" = false := by decide
example : hasWordSelf "pub fn herself(x: i32) \x7b" = false := by decide
example : hasWordSelf "pub fn f(a: i32) \x7b" = false := by decide

/-- Match a literal at the front of the list, returning the remainder. -/
def dropLit : List Char → List Char → Option (List Char)
  | [], s => some s
  | _ :: _, [] => none
  | c :: cs, d :: ds => if c = d then dropLit cs ds else none

/-- Match one-or-more whitespace characters at the front of the list
(regex \s+ by maximal munch, valid here because the following regex atom
can never match a whitespace character). -/
def dropWs1 : List Char → Option (List Char)
  | [] => none
  | c :: rest => if pyIsSpace c then some (rest.dropWhile pyIsSpace) else none

/-- Python re.match(r'pub\s+fn\s+(\w+)\(', s) from source line 221: the
match is anchored at the very start of the raw line (note: not at the
left-trimmed line), and on success the captured group is the function
name. -/
def matchPubFn (s : String) : Option String := do
  let r ← dropLit "pub".toList s.toList
  let r ← dropWs1 r
  let r ← dropLit "fn".toList r
  let r ← dropWs1 r
  let name := r.takeWhile isWordChar
  let rest := r.dropWhile isWordChar
  if name ≠ [] && rest.headD ' ' = '(' && rest ≠ [] then some name.asString else none

example : matchPubFn "pub fn foo(x: i32) \x7b" = some "foo" := by decide
example : matchPubFn "  pub fn foo(x: i32) \x7b" = none := by decide
example : matchPubFn "pub fn foo (x) \x7b" = none := by decide
example : matchPubFn "pub  fn  type_(x: i32) \x7b" = some "type_" := by decide

/-- State of the left-to-right scan performed by
re.finditer(r'(\w+)\s*:(?!:)', header): either not inside a candidate
identifier run, inside one (characters collected in reverse), or past a
run and consuming the optional whitespace before a colon. -/
inductive ArgScanState : Type where
  | norun : ArgScanState
  | run (acc : List Char) : ArgScanState
  | wsAfter (acc : List Char) : ArgScanState
deriving Repr, DecidableEq

/-- Python re.finditer(r'(\w+)\s*:(?!:)', header) from source lines
233-234, returning the captured identifiers in order of appearance: each
match is a maximal word-character run, optionally followed by whitespace,
followed by a colon that is not itself followed by a colon.  The scan is
an equivalent state machine over the characters: regex starting positions
inside a run that fails the colon test all fail, so the scan resumes
after the run (and after the matched colon on success). -/
def scanArgs : List Char → ArgScanState → List String
  | [], _ => []
  | c :: rest, .norun =>
    if isWordChar c then scanArgs rest (.run [c]) else scanArgs rest .norun
  | c :: rest, .run acc =>
    if isWordChar c then scanArgs rest (.run (c :: acc))
    else if pyIsSpace c then scanArgs rest (.wsAfter acc)
    else if c = ':' then
      if rest.headD ' ' = ':' then scanArgs rest .norun
      else acc.reverse.asString :: scanArgs rest .norun
    else scanArgs rest .norun
  | c :: rest, .wsAfter acc =>
    if pyIsSpace c then scanArgs rest (.wsAfter acc)
    else if c = ':' then
      if rest.headD ' ' = ':' then scanArgs rest .norun
      else acc.reverse.asString :: scanArgs rest .norun
    else if isWordChar c then scanArgs rest (.run [c])
    else scanArgs rest .norun

/-- Argument-name extraction over a complete function header
(source lines 233-234). -/
def extractArgNames (header : String) : List String :=
  scanArgs header.toList .norun

example : extractArgNames "pub fn f(a: i32, context: &Ctx) \x7b" = ["a", "context"] := by decide
example : extractArgNames "pub fn type_(x: i32) \x7b" = ["x"] := by decide
example : extractArgNames "pub fn f() \x7b" = [] := by decide
example : extractArgNames "pub fn f(x: std::fmt::Result) \x7b" = ["x"] := by decide
example : extractArgNames "pub fn f(a : i32, b:u8) \x7b" = ["a", "b"] := by decide

/-- The header-accumulation loop of source lines 229-232:

    func_header = def_start_line
    j = idx
    while '{' not in lines[j]:
        func_header += lines[j]

modelled step by step with explicit fuel; hdr is func_header, j is the
loop index.  Note that the source never changes j inside the loop, which
is reproduced faithfully here: the recursive call keeps the same j.
A result of none means the loop has not exited within the given fuel. -/
def accumLoop (lines : List String) (hdr : String) (j : Nat) : Nat → Option String
  | 0 => none
  | fuel + 1 =>
    if pycontains "\x7b" (lines.getD j "") then some hdr
    else accumLoop lines (hdr ++ lines.getD j "") j fuel

/-- Denotation of the header-accumulation loop: because j never advances,
the loop exits immediately (with func_header still equal to the
declaration's start line) when that very line contains a brace, and never
exits otherwise.  The equivalence with accumLoop is proved below
(accumLoop_brace / accumLoop_stuck / accumHeader_iff_accumLoop). -/
def accumHeader (lines : List String) (idx : Nat) : Option String :=
  if pycontains "\x7b" (lines.getD idx "") then some (lines.getD idx "") else none

/-- Python re.sub(r'^\s*\*', os.linesep + '*', line): when the line starts
with optional whitespace and a bullet star, that prefix is replaced by a
newline and the star (source line 245). -/
def subLeadingStar (s : String) : String :=
  match s.toList.dropWhile pyIsSpace with
  | '*' :: t => ('\n' :: '*' :: t).asString
  | _ => s

/-- Doc-comment collection of source lines 237-247, reading upward:

    for j in range(idx - 1, 0, -1):
        line = lines[j].lstrip()
        if not line.startswith('///'):
            break
        line = line.lstrip('/').strip() or os.linesep
        line = re.sub(r'^\s*\*', os.linesep + '*', line)
        docstring_lines.append(line)

Note range(idx - 1, 0, -1) visits idx-1, idx-2, ..., 1 and never visits
line 0.  This function is invoked with j = idx - 1 and recurses downward;
the j = 0 base case returns nothing, mirroring the exclusive stop bound. -/
def collectDocLines (lines : List String) : Nat → List String
  | 0 => []
  | j + 1 =>
    let line := pylstrip (lines.getD (j + 1) "")
    if pystartswith "///" line then
      (let l := pystrip (pylstripChars ['/'] line)
       let l := if l = "" then "\n" else l
       subLeadingStar l) :: collectDocLines lines j
    else []

/-- The docstring assembled for a declaration at line idx
(source lines 237-248): collected lines are reversed back into source
order and joined with no separator. -/
def buildDocstring (lines : List String) (idx : Nat) : String :=
  String.join (collectDocLines lines (idx - 1)).reverse

example : buildDocstring ["/// a", "/// b", "pub fn f() \x7b"] 2 = "b" := by decide
example : buildDocstring ["// x", "/// doc", "pub fn f() \x7b"] 2 = "doc" := by decide
example : buildDocstring ["/// doc", "pub fn f() \x7b"] 1 = "" := by decide
example : subLeadingStar "* item" = "\n* item" := by decide

/-- The Function namedtuple of the source (name, description, arguments,
returns).  arguments models OrderedDict(zip(argnames, repeat(None))): the
keys in insertion order (duplicates collapsed to their first occurrence,
as OrderedDict does); all values are None, so only the key list is kept.
returns is always None at this stage (source line 261). -/
structure Function where
  name : String
  description : String
  arguments : List String
  returns : Option String
deriving Repr, DecidableEq

/-- The Module namedtuple of the source (path, name, description,
submodules, functions).  Recursive because submodules are Modules. -/
inductive Module : Type where
  | mk (path : String) (name : String) (description : String)
       (submodules : List Module) (functions : List Function) : Module

/-- Projection: the path field of a Module. -/
def Module.path : Module → String
  | .mk p _ _ _ _ => p

/-- Projection: the name field of a Module. -/
def Module.name : Module → String
  | .mk _ n _ _ _ => n

/-- Projection: the description field of a Module. -/
def Module.description : Module → String
  | .mk _ _ d _ _ => d

/-- Projection: the submodules field of a Module. -/
def Module.submodules : Module → List Module
  | .mk _ _ _ s _ => s

/-- Projection: the functions field of a Module. -/
def Module.functions : Module → List Function
  | .mk _ _ _ _ f => f

/-- Source line 253 compares argnames[:-1] (a Python list) with the
string 'context' using ==.  In Python, a list and a str are never equal,
so this comparison is False for every operand; the definition records
that fact. -/
def pyEqListStr (_ : List String) (_ : String) : Bool :=
  false

/-- Keys of OrderedDict(zip(argnames, repeat(None))): insertion order,
first occurrence wins for duplicates. -/
def odKeys (l : List String) : List String :=
  l.foldl (fun acc x => if acc.contains x then acc else acc ++ [x]) []

/-- Indices of candidate declaration lines (source lines 213-214):
every line whose left-trimmed content starts with "pub fn". -/
def pubFnIndices (lines : List String) : List Nat :=
  (List.range lines.length).filter
    (fun i => pystartswith "pub fn" (pylstrip (lines.getD i "")))

/-- Processing of one candidate declaration line (source lines 215-266).
Outer none models the analysis never finishing (the header-accumulation
loop diverging); some none models the declaration being skipped (a method
mentioning self, or a line the anchored name regex rejects, which the
source logs as a spurious definition); some (some f) is an extracted
Function. -/
def analyzeDeclAt (lines : List String) (idx : Nat) : Option (Option Function) :=
  let defStartLine := lines.getD idx ""
  if hasWordSelf defStartLine then some none
  else
    match matchPubFn defStartLine with
    | none => some none
    | some fnNameRaw =>
      match accumHeader lines idx with
      | none => none
      | some funcHeader =>
        let argnames := extractArgNames funcHeader
        let docstring := buildDocstring lines idx
        let fnName := pyrstripChars ['_'] fnNameRaw
        let argnames :=
          if pyEqListStr argnames.dropLast "context" then argnames.dropLast
          else argnames
        some (some { name := fnName, description := docstring,
                     arguments := odKeys argnames, returns := none })

/-- The function-extraction pass over a whole file (source lines 212-266):
process each candidate index in order, dropping skipped declarations; if
any declaration's header loop diverges the whole analysis diverges
(modelled by none). -/
def analyzeFns (lines : List String) : Option (List Function) :=
  (pubFnIndices lines).foldl
    (fun acc idx =>
      match acc with
      | none => none
      | some fs =>
        match analyzeDeclAt lines idx with
        | none => none
        | some none => some fs
        | some (some f) => some (fs ++ [f]))
    (some [])

/-- Module-level docstring (source lines 207-209): the contiguous prefix
of lines starting with "//!" (no left-trim here), each stripped of its
leading '/' and '!' characters and surrounding whitespace, joined with
os.linesep. -/
def modDocstring (lines : List String) : String :=
  pyjoin "\n"
    ((lines.takeWhile (fun l => pystartswith "//!" l)).map
      (fun l => pystrip (pylstripChars ['/', '!'] l)))

example : analyzeFns ["pub fn type_(x: i32) \x7b"]
    = some [{ name := "type", description := "", arguments := ["x"], returns := none }] := by decide
example : analyzeFns ["pub fn f(a: i32, context: &Ctx) \x7b"]
    = some [{ name := "f", description := "", arguments := ["a", "context"], returns := none }] := by decide
example : analyzeFns ["    pub fn foo(x: i32) \x7b"] = some [] := by decide
example : analyzeFns ["/// first", "/// second", "pub fn f() \x7b"]
    = some [{ name := "f", description := "second", arguments := [], returns := none }] := by decide
example : analyzeFns ["pub fn m(&self) \x7b"] = some [] := by decide
example : analyzeFns ["fn private() \x7b"] = some [] := by decide
example : analyzeFns ["pub fn f("] = none := by decide
example : modDocstring ["//! Top doc.", "//! More.", "", "pub fn f() \x7b"] = "Top doc.\nMore." := by decide

/-- A Rust source file as the analyzer sees it: its base name without the
.rs extension (Path.stem) and its lines. -/
structure RustFile where
  stem : String
  lines : List String
deriving Repr, DecidableEq

/-- Sequence a list of optional results: none if any element is none
(one diverging sibling analysis makes the whole run diverge). -/
def seqOpt : List (Option α) → Option (List α)
  | [] => some []
  | o :: os =>
    match o with
    | none => none
    | some a =>
      match seqOpt os with
      | none => none
      | some as' => some (a :: as')

/-- analyze_rust_module (source lines 178-276) on a file whose stem is not
the aggregator stem "mod": no submodule expansion, the module name is the
file's stem.  dirName is the name (stem) of the containing directory,
used only for the stored path.  A none result models the analysis
diverging in the header-accumulation loop. -/
def analyzeLeaf (dirName : String) (f : RustFile) : Option Module :=
  match analyzeFns f.lines with
  | none => none
  | some fns =>
    some (.mk (dirName ++ "/" ++ f.stem ++ ".rs") f.stem
              (modDocstring f.lines) [] fns)

/-- analyze_rust_module (source lines 178-276) on a file inside a
directory.  When the file's stem is the aggregator stem "mod", the module
name becomes the parent directory's name and every sibling *.rs file
except aggregator files is recursively analyzed as a submodule
(source lines 191-198; the recursive describe_rust_api call on a sibling
takes the non-aggregator branch because globbed siblings with stem "mod"
are filtered out, so it is embedded as analyzeLeaf).  files is the
directory listing of *.rs files in glob order (it contains the analyzed
file itself).  Note Path objects are always truthy in Python, so the
bare-mod.rs branch of source lines 199-201 is unreachable for a file in a
directory and is not modelled. -/
def analyzeInDir (dirName : String) (files : List RustFile) (f : RustFile) : Option Module :=
  if f.stem = "mod" then
    match seqOpt ((files.filter (fun g => g.stem ≠ "mod")).map (analyzeLeaf dirName)) with
    | none => none
    | some subs =>
      match analyzeFns f.lines with
      | none => none
      | some fns =>
        some (.mk (dirName ++ "/mod.rs") dirName (modDocstring f.lines) subs fns)
  else analyzeLeaf dirName f

example : analyzeLeaf "d" ⟨"a", []⟩ = some (.mk "d/a.rs" "a" "" [] []) := rfl
example :
    analyzeInDir "util" [⟨"mod", []⟩, ⟨"a", []⟩, ⟨"b", []⟩] ⟨"mod", []⟩
      = some (.mk "util/mod.rs" "util" ""
          [.mk "util/a.rs" "a" "" [] [], .mk "util/b.rs" "b" "" [] []] []) := rfl

/-- The index-search loop of insert_api_docs (source lines 130-134): the
loop assigns the index of every line containing the marker, so the final
value is the index of the last such line, or none when no line contains
the marker. -/
def findLastIdx (marker : String) (ls : List String) : Option Nat :=
  (List.range ls.length).foldl
    (fun acc i => if pycontains marker (ls.getD i "") then some i else acc)
    none

/-- Default begin marker of insert_api_docs (source lines 105-106). -/
def beginMarkerDefault : String := "BEGIN AUTOGENERATED API DOCUMENTATION"

/-- Default end marker of insert_api_docs (source lines 105-106). -/
def endMarkerDefault : String := "END AUTOGENERATED API DOCUMENTATION"

/-- insert_api_docs (source lines 104-154).  moduleRenders is the list of
module.render() strings, one per element of the modules iterable (render
is jinja templating over template files outside the analyzed source, so
the rendered strings are taken as given; the list is empty exactly when
modules is falsy).  fileLines is the content of the target file.  The
result models the observable effect on the target file:
Except.error _ is a raised ValueError, with the file untouched because
the raise happens before the seek/truncate/write of source lines 152-154;
Except.ok none is an early return with the file never opened (source
lines 118-119); Except.ok (some c) means the file is rewritten to hold
exactly c. -/
def insert_api_docs (moduleRenders : List String) (fileLines : List String)
    (beginMarker : String := beginMarkerDefault)
    (endMarker : String := endMarkerDefault) : Except String (Option String) :=
  if moduleRenders.isEmpty then .ok none
  else
    let docs := pyjoin "\n" moduleRenders
    let targetLines := fileLines.map pystrip
    match findLastIdx beginMarker targetLines, findLastIdx endMarker targetLines with
    | some beginIdx, some endIdx =>
      if beginIdx = endIdx then .error "empty region"
      else
        .ok (some (pyjoin "\n"
          [pystrip (pyjoin "\n" (targetLines.take (beginIdx + 1))),
           docs,
           pystrip (pyjoin "\n" (targetLines.drop endIdx))]))
    | _, _ => .error "begin or end marker not found"

example :
    insert_api_docs ["DOCS"]
      ["intro", "x BEGIN AUTOGENERATED API DOCUMENTATION", "old line",
       "x END AUTOGENERATED API DOCUMENTATION", "tail"]
      = .ok (some ("intro\nx BEGIN AUTOGENERATED API DOCUMENTATION\nDOCS\n" ++
                   "x END AUTOGENERATED API DOCUMENTATION\ntail")) := rfl
example : insert_api_docs ["DOCS"] ["no markers at all"] = .error "begin or end marker not found" := rfl
example : insert_api_docs [] ["no markers at all"] = .ok none := rfl

/-- Split a character list at every newline character.  Specification-side
device used to state line-level frame properties of the insertion step;
left inverse of joinChars. -/
def splitNl : List Char → List (List Char)
  | [] => [[]]
  | c :: rest =>
    if c = '\n' then [] :: splitNl rest
    else
      match splitNl rest with
      | [] => [[c]]
      | l :: ls => (c :: l) :: ls

/-- Newline joining of character lists; the character-level image of
pyjoin "\n". -/
def joinChars : List (List Char) → List Char
  | [] => []
  | [x] => x
  | x :: y :: xs => x ++ '\n' :: joinChars (y :: xs)

/-- The lines of a string, split at newline characters. -/
def splitNlStr (s : String) : List String :=
  (splitNl s.toList).map List.asString

example : splitNlStr "a\nb\n\nc" = ["a", "b", "", "c"] := by decide

/-- When the declaration's start line contains no brace, the
header-accumulation loop never exits (the loop index j is never changed),
whatever the accumulated header and however much fuel is granted. -/
theorem accumLoop_stuck (lines : List String) (j : Nat)
    (h : pycontains "\x7b" (lines.getD j "") = false) (hdr : String) (fuel : Nat) :
    accumLoop lines hdr j fuel = none := by
  induction fuel generalizing hdr with
  | zero => rfl
  | succ n ih => simp only [accumLoop, h, Bool.false_eq_true, if_false]; exact ih _

/-- When the declaration's start line contains a brace, the loop exits at
once, returning the accumulated header unchanged. -/
theorem accumLoop_brace (lines : List String) (j : Nat)
    (h : pycontains "\x7b" (lines.getD j "") = true) (hdr : String) (fuel : Nat) :
    accumLoop lines hdr j (fuel + 1) = some hdr := by
  simp only [accumLoop, h, if_true]

/-- accumHeader is exactly the terminating behaviour of the fuel-indexed
loop entered as in the source (func_header initialised to the
declaration's start line, j initialised to idx). -/
theorem accumHeader_iff_accumLoop (lines : List String) (idx : Nat) (hdr : String) :
    accumHeader lines idx = some hdr ↔
      ∃ fuel, accumLoop lines (lines.getD idx "") idx fuel = some hdr := by
  unfold accumHeader
  by_cases hc : pycontains "\x7b" (lines.getD idx "") = true
  · simp only [hc, if_true, Option.some.injEq]
    constructor
    · intro h; exact ⟨1, by rw [accumLoop_brace lines idx hc _ 0, h]⟩
    · rintro ⟨fuel, hf⟩
      cases fuel with
      | zero => cases hf
      | succ n => rw [accumLoop_brace lines idx hc _ n] at hf; cases hf; rfl
  · rw [Bool.not_eq_true] at hc
    simp only [hc, Bool.false_eq_true, if_false]
    constructor
    · intro h; cases h
    · rintro ⟨fuel, hf⟩
      rw [accumLoop_stuck lines idx hc _ fuel] at hf; cases hf

/-- Every Module produced by analyzeLeaf is named after the file's stem. -/
theorem analyzeLeaf_name (dirName : String) (g : RustFile) (m : Module)
    (h : analyzeLeaf dirName g = some m) : m.name = g.stem := by
  unfold analyzeLeaf at h
  cases hfns : analyzeFns g.lines with
  | none => rw [hfns] at h; cases h
  | some fns => rw [hfns] at h; cases h; rfl

/-- If sequencing the sibling analyses succeeds, the resulting submodules
are in one-to-one correspondence with the sibling files, each named after
its file's stem. -/
theorem seqOpt_analyzeLeaf_names (dirName : String) (gs : List RustFile)
    (subs : List Module) (h : seqOpt (gs.map (analyzeLeaf dirName)) = some subs) :
    subs.map Module.name = gs.map RustFile.stem := by
  induction gs generalizing subs with
  | nil =>
    simp only [List.map_nil, seqOpt] at h
    cases h; rfl
  | cons g gs ih =>
    simp only [List.map_cons, seqOpt] at h
    cases hg : analyzeLeaf dirName g with
    | none => rw [hg] at h; cases h
    | some mg =>
      rw [hg] at h
      cases hrest : seqOpt (gs.map (analyzeLeaf dirName)) with
      | none => rw [hrest] at h; cases h
      | some subs' =>
        rw [hrest] at h
        cases h
        simp only [List.map_cons, analyzeLeaf_name dirName g mg hg, List.cons.injEq, true_and]
        exact ih subs' hrest

/-- A marker index produced by the search loop is a valid line index. -/
theorem findLastIdx_lt (marker : String) (ls : List String) (i : Nat)
    (h : findLastIdx marker ls = some i) : i < ls.length := by
  unfold findLastIdx at h
  suffices H : ∀ (js : List Nat) (acc : Option Nat),
      (∀ j, acc = some j → j < ls.length) → (∀ j ∈ js, j < ls.length) →
      js.foldl (fun acc i =>
        if pycontains marker (ls.getD i "") then some i else acc) acc = some i →
      i < ls.length by
    exact H (List.range ls.length) none (by intro j hj; cases hj)
      (by intro j hj; exact List.mem_range.mp hj) h
  intro js
  induction js with
  | nil => intro acc hacc _ hfold; exact hacc i hfold
  | cons j t ih =>
    intro acc hacc hjs hfold
    simp only [List.foldl_cons] at hfold
    refine ih _ ?_ (fun x hx => hjs x (List.mem_cons_of_mem j hx)) hfold
    intro x hx
    by_cases hc : pycontains marker (ls.getD j "") = true
    · rw [if_pos hc] at hx; cases hx; exact hjs j (List.mem_cons_self j t)
    · rw [if_neg hc] at hx; exact hacc x hx

/-- C1: the analyzer never drops a trailing context parameter.  Source
line 253 compares argnames[:-1] — a Python list — with the string
'context', a comparison that is False for every value, so for the
declaration line "pub fn f(a: i32, context: &Ctx) \x7b" the extracted
arguments are ["a", "context"], not ["a"] as the spec states.  This
evaluates the embedded analyzer at that failing input. -/
theorem context_parameter_never_dropped :
    analyzeFns ["pub fn f(a: i32, context: &Ctx) \x7b"]
      = some [{ name := "f", description := "", arguments := ["a", "context"],
                returns := none }] := by decide

/-- C2: the header-accumulation loop of source lines 229-232 never
terminates on a declaration whose parameter list spans more than one line.
For the file ["pub fn f(", "    a: i32) \x7b"] with the declaration at index
0, the loop tests line 0 forever (j is never incremented), so no amount of
fuel makes it exit, whatever header text has been accumulated — although
line 1 contains the body-opening brace the claim says would end the
accumulation. -/
theorem header_accumulation_diverges :
    ∀ (hdr : String) (fuel : Nat),
      accumLoop ["pub fn f(", "    a: i32) \x7b"] hdr 0 fuel = none := by
  intro hdr fuel
  exact accumLoop_stuck _ 0 (by decide) hdr fuel

/-- C3: the doc-comment scan of source line 238 is range(idx - 1, 0, -1),
whose exclusive stop bound skips file line 0.  For the file
["/// first", "/// second", "pub fn f() \x7b"] the declaration at index 2 is
given description "second" only: the contiguous doc-comment line at index
0 is never visited, contradicting the claim that the scan reaches line 0.
This evaluates the embedded analyzer at that failing input. -/
theorem doc_comment_line_zero_dropped :
    analyzeFns ["/// first", "/// second", "pub fn f() \x7b"]
      = some [{ name := "f", description := "second", arguments := [],
                returns := none }] := by decide

/-- C6: an indented public-function declaration is skipped rather than
extracted.  The index scan of source lines 213-214 left-trims the line
before testing for "pub fn", but the name regex of source line 221 is
anchored by re.match at the raw start of the line, so the line
"    pub fn foo(x: i32) \x7b" is reported as spurious and produces no
Function, contradicting the claim that leading whitespace is irrelevant.
This evaluates the embedded analyzer at that failing input. -/
theorem indented_pub_fn_skipped :
    analyzeFns ["    pub fn foo(x: i32) \x7b"] = some [] := by decide

/-- C8: a public function declared with a trailing disambiguation
underscore, "pub fn type_(x: i32) \x7b", is stored with the underscore
stripped from its name (source line 252: fn_name.rstrip('_')) and with
argument list ["x"]. -/
theorem disambiguation_suffix_stripped :
    analyzeFns ["pub fn type_(x: i32) \x7b"]
      = some [{ name := "type", description := "", arguments := ["x"],
                returns := none }] := by decide

/-- C9: the analysis is deterministic — two runs of the analyzer on the
same directory listing and file content produce Modules that agree field
for field. -/
theorem analysis_deterministic (dirName : String) (files : List RustFile)
    (f : RustFile) (m1 m2 : Module)
    (h1 : analyzeInDir dirName files f = some m1)
    (h2 : analyzeInDir dirName files f = some m2) :
    m1.path = m2.path ∧ m1.name = m2.name ∧ m1.description = m2.description ∧
    m1.submodules = m2.submodules ∧ m1.functions = m2.functions := by
  rw [h1] at h2
  cases h2
  exact ⟨rfl, rfl, rfl, rfl, rfl⟩

/-- Witness for C9: both hypotheses hold at a concrete input, by
evaluation, and the determinism theorem applies there. -/
theorem analysis_deterministic_witness :
    analyzeInDir "d" [⟨"a", ["pub fn g(y: u8) \x7b"]⟩] ⟨"a", ["pub fn g(y: u8) \x7b"]⟩
      = some (.mk "d/a.rs" "a" ""  []
          [{ name := "g", description := "", arguments := ["y"], returns := none }]) ∧
    ((Module.mk "d/a.rs" "a" "" []
        [{ name := "g", description := "", arguments := ["y"], returns := none }]).path
      = (Module.mk "d/a.rs" "a" "" []
        [{ name := "g", description := "", arguments := ["y"], returns := none }]).path ∧
     (Module.mk "d/a.rs" "a" "" []
        [{ name := "g", description := "", arguments := ["y"], returns := none }]).name
      = (Module.mk "d/a.rs" "a" "" []
        [{ name := "g", description := "", arguments := ["y"], returns := none }]).name ∧
     (Module.mk "d/a.rs" "a" "" []
        [{ name := "g", description := "", arguments := ["y"], returns := none }]).description
      = (Module.mk "d/a.rs" "a" "" []
        [{ name := "g", description := "", arguments := ["y"], returns := none }]).description ∧
     (Module.mk "d/a.rs" "a" "" []
        [{ name := "g", description := "", arguments := ["y"], returns := none }]).submodules
      = (Module.mk "d/a.rs" "a" "" []
        [{ name := "g", description := "", arguments := ["y"], returns := none }]).submodules ∧
     (Module.mk "d/a.rs" "a" "" []
        [{ name := "g", description := "", arguments := ["y"], returns := none }]).functions
      = (Module.mk "d/a.rs" "a" "" []
        [{ name := "g", description := "", arguments := ["y"], returns := none }]).functions) :=
  ⟨rfl, analysis_deterministic "d" [⟨"a", ["pub fn g(y: u8) \x7b"]⟩] ⟨"a", ["pub fn g(y: u8) \x7b"]⟩
    (Module.mk "d/a.rs" "a" "" []
      [{ name := "g", description := "", arguments := ["y"], returns := none }])
    (Module.mk "d/a.rs" "a" "" []
      [{ name := "g", description := "", arguments := ["y"], returns := none }]) rfl rfl⟩

/-- C10: called with an empty modules collection, insert_api_docs returns
at once (source lines 118-119): no error is raised and nothing is written,
whatever the target file holds — even one lacking both markers — and for
arbitrary marker strings.  Except.ok none is exactly the no-file-access
early return of the model. -/
theorem empty_modules_early_return :
    ∀ (fileLines : List String) (bm em : String),
      insert_api_docs [] fileLines bm em = .ok none := by
  intro fileLines bm em
  rfl

/-- C7: analyzing an aggregator file (stem "mod") yields a Module named
after the parent directory whose submodules are exactly the successfully
analyzed sibling *.rs files other than aggregator files, in listing
order, each submodule named after its own file's stem. -/
theorem aggregator_module_submodules (dirName : String) (files : List RustFile)
    (f : RustFile) (m : Module) (hstem : f.stem = "mod")
    (h : analyzeInDir dirName files f = some m) :
    m.name = dirName ∧
    seqOpt ((files.filter (fun g => g.stem ≠ "mod")).map (analyzeLeaf dirName))
      = some m.submodules ∧
    m.submodules.map Module.name
      = (files.filter (fun g => g.stem ≠ "mod")).map RustFile.stem := by
  unfold analyzeInDir at h
  rw [if_pos hstem] at h
  cases hs : seqOpt ((files.filter (fun g => g.stem ≠ "mod")).map (analyzeLeaf dirName)) with
  | none => rw [hs] at h; cases h
  | some subs =>
    rw [hs] at h
    cases hf : analyzeFns f.lines with
    | none => rw [hf] at h; cases h
    | some fns =>
      rw [hf] at h
      cases h
      exact ⟨rfl, rfl, seqOpt_analyzeLeaf_names dirName _ subs hs⟩

/-- Witness for C7: a directory "util" holding the aggregator file and two
sibling files; the hypotheses evaluate to true and the theorem applies,
giving exactly two submodules named "a" and "b". -/
theorem aggregator_module_submodules_witness :
    (RustFile.mk "mod" []).stem = "mod" ∧
    analyzeInDir "util" [⟨"mod", []⟩, ⟨"a", []⟩, ⟨"b", []⟩] ⟨"mod", []⟩
      = some (.mk "util/mod.rs" "util" ""
          [.mk "util/a.rs" "a" "" [] [], .mk "util/b.rs" "b" "" [] []] []) ∧
    ((Module.mk "util/mod.rs" "util" ""
        [.mk "util/a.rs" "a" "" [] [], .mk "util/b.rs" "b" "" [] []] []).name = "util" ∧
     seqOpt ((([⟨"mod", []⟩, ⟨"a", []⟩, ⟨"b", []⟩] : List RustFile).filter
          (fun g => g.stem ≠ "mod")).map (analyzeLeaf "util"))
       = some (Module.mk "util/mod.rs" "util" ""
          [.mk "util/a.rs" "a" "" [] [], .mk "util/b.rs" "b" "" [] []] []).submodules ∧
     (Module.mk "util/mod.rs" "util" ""
        [.mk "util/a.rs" "a" "" [] [], .mk "util/b.rs" "b" "" [] []] []).submodules.map
          Module.name
       = (([⟨"mod", []⟩, ⟨"a", []⟩, ⟨"b", []⟩] : List RustFile).filter
          (fun g => g.stem ≠ "mod")).map RustFile.stem) :=
  ⟨rfl, rfl, aggregator_module_submodules "util" [⟨"mod", []⟩, ⟨"a", []⟩, ⟨"b", []⟩] ⟨"mod", []⟩
    (Module.mk "util/mod.rs" "util" ""
      [.mk "util/a.rs" "a" "" [] [], .mk "util/b.rs" "b" "" [] []] []) rfl rfl⟩

/-- Counterexample for C5: with an empty (falsy) modules collection the
insertion step returns before the marker search, so a target file lacking
both markers raises no error at all — the claim that a missing marker
always raises a ValueError is false at this input. -/
theorem insert_empty_modules_no_error :
    insert_api_docs [] ["plain text, no markers"] = .ok none := rfl

/-- C5 (amended): when the modules collection is non-empty, a missing
begin or end marker, or both markers resolving to the same line, raises a
ValueError; the raise happens before the seek/truncate/write of source
lines 152-154, which the model expresses by returning Except.error with
no new file content, so the target file is unmodified. -/
theorem insert_api_docs_error_cases (moduleRenders fileLines : List String)
    (bm em : String) (hne : moduleRenders ≠ [])
    (h : findLastIdx bm (fileLines.map pystrip) = none ∨
         findLastIdx em (fileLines.map pystrip) = none ∨
         findLastIdx bm (fileLines.map pystrip)
           = findLastIdx em (fileLines.map pystrip)) :
    ∃ msg, insert_api_docs moduleRenders fileLines bm em = .error msg := by
  have hne' : moduleRenders.isEmpty = false := by
    cases moduleRenders with
    | nil => exact absurd rfl hne
    | cons x xs => rfl
  unfold insert_api_docs
  rw [hne']
  simp only [Bool.false_eq_true, if_false]
  rcases h with hb | he | heq
  · rw [hb]
    cases findLastIdx em (fileLines.map pystrip) <;> exact ⟨_, rfl⟩
  · rw [he]
    cases findLastIdx bm (fileLines.map pystrip) <;> exact ⟨_, rfl⟩
  · cases hbv : findLastIdx bm (fileLines.map pystrip) with
    | none => rw [hbv] at heq; rw [← heq]; exact ⟨_, rfl⟩
    | some b =>
      rw [hbv] at heq
      rw [← heq]
      exact ⟨"empty region", by simp⟩

/-- Witness for C5 (amended): a non-empty render list against a file with
no markers; the hypotheses evaluate to true and the theorem applies. -/
theorem insert_api_docs_error_cases_witness :
    (["DOCS"] ≠ ([] : List String)) ∧
    (findLastIdx "BEGIN AUTOGENERATED API DOCUMENTATION"
        ((["plain text"] : List String).map pystrip) = none ∨
     findLastIdx "END AUTOGENERATED API DOCUMENTATION"
        ((["plain text"] : List String).map pystrip) = none ∨
     findLastIdx "BEGIN AUTOGENERATED API DOCUMENTATION"
        ((["plain text"] : List String).map pystrip)
       = findLastIdx "END AUTOGENERATED API DOCUMENTATION"
        ((["plain text"] : List String).map pystrip)) ∧
    (∃ msg, insert_api_docs ["DOCS"] ["plain text"]
        "BEGIN AUTOGENERATED API DOCUMENTATION"
        "END AUTOGENERATED API DOCUMENTATION" = .error msg) :=
  ⟨by simp, Or.inl rfl,
   insert_api_docs_error_cases ["DOCS"] ["plain text"] _ _ (by simp) (Or.inl rfl)⟩

/-- Round trip from a character list through asString and back. -/
theorem toList_asString (cs : List Char) : cs.asString.toList = cs := rfl

/-- Round trip from a string through toList and back. -/
theorem asString_toList (s : String) : s.toList.asString = s := rfl

/-- toList is a monoid morphism for string append. -/
theorem toList_append (s t : String) : (s ++ t).toList = s.toList ++ t.toList := rfl

/-- Character-level view of pyjoin with a newline separator. -/
theorem toList_pyjoin (L : List String) :
    (pyjoin "\n" L).toList = joinChars (L.map String.toList) := by
  induction L with
  | nil => rfl
  | cons x xs ih =>
    cases xs with
    | nil => rfl
    | cons y ys =>
      show (x ++ "\n" ++ pyjoin "\n" (y :: ys)).toList
        = x.toList ++ '\n' :: joinChars ((y :: ys).map String.toList)
      rw [toList_append, toList_append, ih]
      simp [List.append_assoc]

/-- splitNl always produces at least one (possibly empty) line. -/
theorem splitNl_ne_nil (cs : List Char) : splitNl cs ≠ [] := by
  cases cs with
  | nil => simp [splitNl]
  | cons c rest =>
    simp only [splitNl]
    split
    · simp
    · split
      · simp
      · simp

/-- Splitting a newline-free block followed by a newline peels off that
block as the first line. -/
theorem splitNl_cons_append (x t : List Char) (hx : '\n' ∉ x) :
    splitNl (x ++ '\n' :: t) = x :: splitNl t := by
  induction x with
  | nil => simp [splitNl]
  | cons c cs ih =>
    have hc : ¬c = '\n' := fun h => hx (h ▸ List.mem_cons_self c cs)
    have hcs : '\n' ∉ cs := fun h => hx (List.mem_cons_of_mem c h)
    simp only [List.cons_append, splitNl]
    rw [if_neg hc]
    have ha : cs.append ('\n' :: t) = cs ++ '\n' :: t := rfl
    rw [ha, ih hcs]

/-- A newline-free character list splits into the single line it is. -/
theorem splitNl_no_newline (x : List Char) (hx : '\n' ∉ x) : splitNl x = [x] := by
  induction x with
  | nil => rfl
  | cons c cs ih =>
    have hc : ¬c = '\n' := fun h => hx (h ▸ List.mem_cons_self c cs)
    have hcs : '\n' ∉ cs := fun h => hx (List.mem_cons_of_mem c h)
    simp only [splitNl]
    rw [if_neg hc, ih hcs]

/-- Prepending a character to the first block commutes with joining. -/
theorem joinChars_cons_cons (c : Char) (l : List Char) (ls : List (List Char)) :
    joinChars ((c :: l) :: ls) = c :: joinChars (l :: ls) := by
  cases ls <;> rfl

/-- Joining the split of a character list restores it. -/
theorem joinChars_splitNl (cs : List Char) : joinChars (splitNl cs) = cs := by
  induction cs with
  | nil => rfl
  | cons c rest ih =>
    simp only [splitNl]
    by_cases hc : c = '\n'
    · rw [if_pos hc]
      subst hc
      cases hsp : splitNl rest with
      | nil => exact absurd hsp (splitNl_ne_nil rest)
      | cons l ls =>
        show [] ++ '\n' :: joinChars (l :: ls) = '\n' :: rest
        rw [List.nil_append, ← hsp, ih]
    · rw [if_neg hc]
      cases hsp : splitNl rest with
      | nil => exact absurd hsp (splitNl_ne_nil rest)
      | cons l ls =>
        rw [joinChars_cons_cons, ← hsp, ih]

/-- Joining a concatenation of two non-empty block lists inserts one
newline at the junction. -/
theorem joinChars_append (X Y : List (List Char)) (hX : X ≠ []) (hY : Y ≠ []) :
    joinChars (X ++ Y) = joinChars X ++ '\n' :: joinChars Y := by
  induction X with
  | nil => exact absurd rfl hX
  | cons x xs ih =>
    cases xs with
    | nil =>
      cases Y with
      | nil => exact absurd rfl hY
      | cons y ys => rfl
    | cons x2 xs2 =>
      have h1 : joinChars (x :: (x2 :: xs2 ++ Y)) = x ++ '\n' :: joinChars (x2 :: xs2 ++ Y) := rfl
      show joinChars (x :: (x2 :: xs2 ++ Y)) = (x ++ '\n' :: joinChars (x2 :: xs2)) ++ '\n' :: joinChars Y
      rw [h1, ih (by simp)]
      simp [List.append_assoc]

/-- Every block produced by splitNl is newline-free. -/
theorem mem_splitNl_no_newline (cs : List Char) : ∀ l ∈ splitNl cs, '\n' ∉ l := by
  induction cs with
  | nil =>
    intro l hl
    simp only [splitNl, List.mem_singleton] at hl
    subst hl
    simp
  | cons c rest ih =>
    intro l hl
    simp only [splitNl] at hl
    by_cases hc : c = '\n'
    · rw [if_pos hc] at hl
      rcases List.mem_cons.mp hl with h | h
      · subst h; simp
      · exact ih l h
    · rw [if_neg hc] at hl
      cases hsp : splitNl rest with
      | nil => exact absurd hsp (splitNl_ne_nil rest)
      | cons l0 ls =>
        rw [hsp] at hl
        rcases List.mem_cons.mp hl with h | h
        · subst h
          intro hmem
          rcases List.mem_cons.mp hmem with h2 | h2
          · exact hc h2.symm
          · exact ih l0 (by rw [hsp]; exact List.mem_cons_self l0 ls) h2
        · exact ih l (by rw [hsp]; exact List.mem_cons_of_mem l0 h)

/-- Splitting the join of non-empty, newline-free blocks restores the
block list. -/
theorem splitNl_joinChars (L : List (List Char)) (hL : L ≠ [])
    (h : ∀ l ∈ L, '\n' ∉ l) : splitNl (joinChars L) = L := by
  induction L with
  | nil => exact absurd rfl hL
  | cons x xs ih =>
    cases xs with
    | nil => exact splitNl_no_newline x (h x (List.mem_cons_self x []))
    | cons y ys =>
      have hx : '\n' ∉ x := h x (List.mem_cons_self x (y :: ys))
      have hrest : ∀ l ∈ y :: ys, '\n' ∉ l :=
        fun l hl => h l (List.mem_cons_of_mem x hl)
      show splitNl (x ++ '\n' :: joinChars (y :: ys)) = x :: (y :: ys)
      rw [splitNl_cons_append _ _ hx, ih (by simp) hrest]

/-- The join of blocks beginning with a is a followed by something. -/
theorem joinChars_cons_eq_append (a : List Char) (ls : List (List Char)) :
    ∃ t, joinChars (a :: ls) = a ++ t := by
  cases ls with
  | nil => exact ⟨[], (List.append_nil a).symm⟩
  | cons y ys => exact ⟨'\n' :: joinChars (y :: ys), rfl⟩

/-- The join of blocks ending with a is something followed by a. -/
theorem joinChars_concat_eq_append (a : List Char) (ls : List (List Char)) :
    ∃ t, joinChars (ls ++ [a]) = t ++ a := by
  induction ls with
  | nil => exact ⟨[], rfl⟩
  | cons x xs ih =>
    obtain ⟨t, ht⟩ := ih
    refine ⟨x ++ '\n' :: t, ?_⟩
    have h1 : joinChars (x :: (xs ++ [a])) = x ++ '\n' :: joinChars (xs ++ [a]) := by
      cases xs <;> rfl
    rw [List.cons_append, h1, ht]
    simp [List.append_assoc]

/-- A list whose visible head is not whitespace is fixed by dropWhile. -/
theorem dropWhile_fix_of_head (cs : List Char) (c : Char)
    (hc : cs.head? = some c) (h : pyIsSpace c = false) :
    cs.dropWhile pyIsSpace = cs := by
  cases cs with
  | nil => rfl
  | cons d t =>
    have hd : d = c := by
      simpa using hc
    subst hd
    simp [List.dropWhile_cons, h]

/-- A list fixed by dropWhile has a non-whitespace visible head. -/
theorem head_not_space_of_dropWhile_fix (cs : List Char)
    (hfix : cs.dropWhile pyIsSpace = cs) (c : Char) (hc : cs.head? = some c) :
    pyIsSpace c = false := by
  cases cs with
  | nil => cases hc
  | cons d t =>
    have hd : d = c := by simpa using hc
    subst hd
    by_contra hp
    rw [Bool.not_eq_false] at hp
    rw [List.dropWhile_cons, if_pos hp] at hfix
    have hle : (t.dropWhile pyIsSpace).length ≤ t.length :=
      (List.dropWhile_suffix _).length_le
    rw [hfix] at hle
    simp at hle

/-- A string fixed by pystrip is fixed by the leading dropWhile and by the
trailing (reversed) dropWhile separately. -/
theorem pystrip_fixed_dropWhile (s : String) (h : pystrip s = s) :
    s.toList.dropWhile pyIsSpace = s.toList ∧
    s.toList.reverse.dropWhile pyIsSpace = s.toList.reverse := by
  have H : ((s.toList.dropWhile pyIsSpace).reverse.dropWhile pyIsSpace).reverse
      = s.toList := congrArg String.toList h
  have hsuf : s.toList.dropWhile pyIsSpace <:+ s.toList := List.dropWhile_suffix _
  have hpre : s.toList <+: s.toList.dropWhile pyIsSpace := by
    have h2 : (s.toList.dropWhile pyIsSpace).reverse.dropWhile pyIsSpace
        <:+ (s.toList.dropWhile pyIsSpace).reverse := List.dropWhile_suffix _
    have h3 := List.reverse_prefix.mpr h2
    rw [List.reverse_reverse] at h3
    nth_rewrite 1 [← H]
    exact h3
  have hlen : (s.toList.dropWhile pyIsSpace).length = s.toList.length :=
    Nat.le_antisymm hsuf.length_le hpre.length_le
  have hD1 : s.toList.dropWhile pyIsSpace = s.toList :=
    hsuf.sublist.eq_of_length hlen
  refine ⟨hD1, ?_⟩
  rw [hD1] at H
  have := congrArg List.reverse H
  rwa [List.reverse_reverse] at this

/-- A non-empty string has a non-empty character list. -/
theorem toList_ne_nil_of_ne_empty (s : String) (h : s ≠ "") : s.toList ≠ [] := by
  intro hnil
  exact h (by rw [← asString_toList s, hnil]; rfl)

/-- Joining lines that are individually strip-fixed and non-empty gives a
strip-fixed string: the outer strip of the insertion step is the identity
on such a block. -/
theorem pystrip_pyjoin_clean (L : List String) (hL : L ≠ [])
    (h : ∀ l ∈ L, pystrip l = l ∧ l ≠ "") :
    pystrip (pyjoin "\n" L) = pyjoin "\n" L := by
  have hJ : (pyjoin "\n" L).toList = joinChars (L.map String.toList) := toList_pyjoin L
  -- head of the join is the head of the first line
  have D1 : (pyjoin "\n" L).toList.dropWhile pyIsSpace = (pyjoin "\n" L).toList := by
    cases L with
    | nil => exact absurd rfl hL
    | cons x xs =>
      obtain ⟨t, ht⟩ := joinChars_cons_eq_append x.toList (xs.map String.toList)
      have hx := h x (List.mem_cons_self x xs)
      have hxl : x.toList ≠ [] := toList_ne_nil_of_ne_empty x hx.2
      cases hcs : x.toList with
      | nil => exact absurd hcs hxl
      | cons c cs =>
        have hhead : (pyjoin "\n" (x :: xs)).toList.head? = some c := by
          rw [hJ]
          show (joinChars (x.toList :: xs.map String.toList)).head? = some c
          rw [ht, hcs]
          rfl
        refine dropWhile_fix_of_head _ c hhead ?_
        have hfix := (pystrip_fixed_dropWhile x hx.1).1
        exact head_not_space_of_dropWhile_fix x.toList hfix c (by rw [hcs]; rfl)
  -- head of the reversed join is the last character of the last line
  have D2 : (pyjoin "\n" L).toList.reverse.dropWhile pyIsSpace
      = (pyjoin "\n" L).toList.reverse := by
    have hlast := List.dropLast_concat_getLast hL
    set lastS := L.getLast hL with hlastS
    have hmem : lastS ∈ L := List.getLast_mem hL
    have hx := h lastS hmem
    have hmap : L.map String.toList
        = L.dropLast.map String.toList ++ [lastS.toList] := by
      conv_lhs => rw [← hlast]
      rw [List.map_append]
      rfl
    obtain ⟨t, ht⟩ :=
      joinChars_concat_eq_append lastS.toList (L.dropLast.map String.toList)
    have hrev : (pyjoin "\n" L).toList.reverse
        = lastS.toList.reverse ++ t.reverse := by
      rw [hJ, hmap, ht, List.reverse_append]
    have hxl : lastS.toList ≠ [] := toList_ne_nil_of_ne_empty lastS hx.2
    have hxr : lastS.toList.reverse ≠ [] := by
      intro hnil
      exact hxl (by simpa using congrArg List.reverse hnil)
    cases hcs : lastS.toList.reverse with
    | nil => exact absurd hcs hxr
    | cons c cs =>
      have hhead : (pyjoin "\n" L).toList.reverse.head? = some c := by
        rw [hrev, hcs]
        rfl
      refine dropWhile_fix_of_head _ c hhead ?_
      have hfix := (pystrip_fixed_dropWhile lastS hx.1).2
      exact head_not_space_of_dropWhile_fix lastS.toList.reverse hfix c
        (by rw [hcs]; rfl)
  show (((pyjoin "\n" L).toList.dropWhile pyIsSpace).reverse.dropWhile
      pyIsSpace).reverse.asString = pyjoin "\n" L
  rw [D1, D2, List.reverse_reverse, asString_toList]

/-- Mapping through toList and back is the identity on line lists. -/
theorem map_asString_toList (L : List String) :
    (L.map String.toList).map List.asString = L := by
  rw [List.map_map]
  have h : ∀ a ∈ L, (List.asString ∘ String.toList) a = id a :=
    fun a _ => asString_toList a
  rw [List.map_congr_left h, List.map_id]

/-- Counterexample for C4: the target file below has a line with leading
whitespace before the markers and two lines containing the begin marker.
The code rewrites the file keeping the region bounded by the LAST
begin-marker line (the search loop of source lines 130-134 overwrites the
index on every hit) and strips every line (source line 125), so the
outside line "  keep" comes back as "keep" and the line "middle" between
the two begin markers survives; the claim — first begin-marker line as
the bound and lines outside the region unchanged character for character
— dictates the second string, which differs from what the code
produces. -/
theorem insert_outside_lines_changed :
    insert_api_docs ["DOCS"]
      ["  keep", "BEGIN AUTOGENERATED API DOCUMENTATION", "middle",
       "BEGIN AUTOGENERATED API DOCUMENTATION", "old",
       "END AUTOGENERATED API DOCUMENTATION", "tail"]
    = .ok (some ("keep\nBEGIN AUTOGENERATED API DOCUMENTATION\nmiddle\n" ++
        "BEGIN AUTOGENERATED API DOCUMENTATION\nDOCS\n" ++
        "END AUTOGENERATED API DOCUMENTATION\ntail")) ∧
    ("keep\nBEGIN AUTOGENERATED API DOCUMENTATION\nmiddle\n" ++
        "BEGIN AUTOGENERATED API DOCUMENTATION\nDOCS\n" ++
        "END AUTOGENERATED API DOCUMENTATION\ntail")
      ≠ ("  keep\nBEGIN AUTOGENERATED API DOCUMENTATION\nDOCS\n" ++
        "END AUTOGENERATED API DOCUMENTATION\ntail") :=
  ⟨rfl, by decide⟩

/-- C4 (amended): with a non-empty modules collection and both markers
found — at the last line containing each marker — and distinct, the file
is rewritten as: the stripped lines up to and including the begin-marker
line, the rendered docs, and the stripped lines from the end-marker line
on, joined by newlines with the prefix and suffix blocks outer-stripped.
Consequently (second conjunct), whenever every line of the target file is
already strip-fixed, non-empty and newline-free, the rewritten file's
line sequence is exactly: the original lines up to and including the
begin-marker line, then the lines of the rendered docs, then the original
lines from the end-marker line on — every line outside the replaced
region preserved exactly. -/
theorem insert_api_docs_frame (moduleRenders fileLines : List String)
    (bm em : String) (beginIdx endIdx : Nat)
    (hne : moduleRenders ≠ [])
    (hb : findLastIdx bm (fileLines.map pystrip) = some beginIdx)
    (he : findLastIdx em (fileLines.map pystrip) = some endIdx)
    (hbe : beginIdx ≠ endIdx) :
    insert_api_docs moduleRenders fileLines bm em
      = .ok (some (pyjoin "\n"
          [pystrip (pyjoin "\n" ((fileLines.map pystrip).take (beginIdx + 1))),
           pyjoin "\n" moduleRenders,
           pystrip (pyjoin "\n" ((fileLines.map pystrip).drop endIdx))])) ∧
    ((∀ l ∈ fileLines, pystrip l = l ∧ l ≠ "" ∧ '\n' ∉ l.toList) →
      splitNlStr (pyjoin "\n"
          [pystrip (pyjoin "\n" ((fileLines.map pystrip).take (beginIdx + 1))),
           pyjoin "\n" moduleRenders,
           pystrip (pyjoin "\n" ((fileLines.map pystrip).drop endIdx))])
        = fileLines.take (beginIdx + 1)
            ++ splitNlStr (pyjoin "\n" moduleRenders)
            ++ fileLines.drop endIdx) := by
  constructor
  · cases moduleRenders with
    | nil => exact absurd rfl hne
    | cons r rs =>
      simp only [insert_api_docs, List.isEmpty_cons, Bool.false_eq_true, if_false, hb, he]
      rw [if_neg hbe]
  · intro hclean
    have hmap : fileLines.map pystrip = fileLines := by
      have h1 : fileLines.map pystrip = fileLines.map id :=
        List.map_congr_left (fun a ha => (hclean a ha).1)
      rw [h1, List.map_id]
    rw [hmap]
    have hblen : beginIdx < fileLines.length := by
      have h1 := findLastIdx_lt bm (fileLines.map pystrip) beginIdx hb
      rwa [List.length_map] at h1
    have helen : endIdx < fileLines.length := by
      have h1 := findLastIdx_lt em (fileLines.map pystrip) endIdx he
      rwa [List.length_map] at h1
    have hAne : fileLines.take (beginIdx + 1) ≠ [] := by
      intro hnil
      rcases List.take_eq_nil_iff.mp hnil with h1 | h1
      · exact Nat.succ_ne_zero _ h1
      · rw [h1] at hblen; simp at hblen
    have hBne : fileLines.drop endIdx ≠ [] := by
      intro hnil
      have h1 := List.drop_eq_nil_iff.mp hnil
      omega
    have hPA : pystrip (pyjoin "\n" (fileLines.take (beginIdx + 1)))
        = pyjoin "\n" (fileLines.take (beginIdx + 1)) :=
      pystrip_pyjoin_clean _ hAne (fun l hl =>
        ⟨(hclean l (List.take_subset _ _ hl)).1,
         (hclean l (List.take_subset _ _ hl)).2.1⟩)
    have hPB : pystrip (pyjoin "\n" (fileLines.drop endIdx))
        = pyjoin "\n" (fileLines.drop endIdx) :=
      pystrip_pyjoin_clean _ hBne (fun l hl =>
        ⟨(hclean l (List.drop_subset _ _ hl)).1,
         (hclean l (List.drop_subset _ _ hl)).2.1⟩)
    rw [hPA, hPB]
    have hX1 : (fileLines.take (beginIdx + 1)).map String.toList ≠ [] := by
      simpa using hAne
    have hX2 : splitNl (pyjoin "\n" moduleRenders).toList ≠ [] := splitNl_ne_nil _
    have hX3 : (fileLines.drop endIdx).map String.toList ≠ [] := by
      simpa using hBne
    have houter : (pyjoin "\n"
          [pyjoin "\n" (fileLines.take (beginIdx + 1)),
           pyjoin "\n" moduleRenders,
           pyjoin "\n" (fileLines.drop endIdx)]).toList
        = joinChars ((fileLines.take (beginIdx + 1)).map String.toList
            ++ splitNl (pyjoin "\n" moduleRenders).toList
            ++ (fileLines.drop endIdx).map String.toList) := by
      rw [toList_pyjoin]
      rw [joinChars_append _ _ (fun h => hX1 (List.append_eq_nil.mp h).1) hX3]
      rw [joinChars_append _ _ hX1 hX2]
      rw [joinChars_splitNl]
      show joinChars [(pyjoin "\n" (fileLines.take (beginIdx + 1))).toList,
          (pyjoin "\n" moduleRenders).toList,
          (pyjoin "\n" (fileLines.drop endIdx)).toList] = _
      show (pyjoin "\n" (fileLines.take (beginIdx + 1))).toList
          ++ '\n' :: ((pyjoin "\n" moduleRenders).toList
            ++ '\n' :: (pyjoin "\n" (fileLines.drop endIdx)).toList) = _
      rw [toList_pyjoin (fileLines.take (beginIdx + 1)),
          toList_pyjoin (fileLines.drop endIdx)]
      simp [List.append_assoc]
    have hnonl : ∀ l ∈ (fileLines.take (beginIdx + 1)).map String.toList
        ++ splitNl (pyjoin "\n" moduleRenders).toList
        ++ (fileLines.drop endIdx).map String.toList, '\n' ∉ l := by
      intro l hl
      rcases List.mem_append.mp hl with h1 | h1
      · rcases List.mem_append.mp h1 with h2 | h2
        · rcases List.mem_map.mp h2 with ⟨a, ha, rfl⟩
          exact (hclean a (List.take_subset _ _ ha)).2.2
        · exact mem_splitNl_no_newline _ l h2
      · rcases List.mem_map.mp h1 with ⟨a, ha, rfl⟩
        exact (hclean a (List.drop_subset _ _ ha)).2.2
    show ((splitNl (pyjoin "\n"
          [pyjoin "\n" (fileLines.take (beginIdx + 1)),
           pyjoin "\n" moduleRenders,
           pyjoin "\n" (fileLines.drop endIdx)]).toList).map List.asString) = _
    rw [houter]
    rw [splitNl_joinChars _ (fun h => hX3 (List.append_eq_nil.mp h).2) hnonl]
    rw [List.map_append, List.map_append]
    rw [map_asString_toList, map_asString_toList]
    rfl

/-- Witness for C4 (amended): concrete markers at lines 1 and 3 of a
five-line file; the hypotheses evaluate to true and the frame theorem
applies there. -/
theorem insert_api_docs_frame_witness :
    (["DOCS"] ≠ ([] : List String)) ∧
    findLastIdx "BEGIN AUTOGENERATED API DOCUMENTATION"
      ((["intro", "BEGIN AUTOGENERATED API DOCUMENTATION", "old",
         "END AUTOGENERATED API DOCUMENTATION", "tail"] : List String).map pystrip)
      = some 1 ∧
    findLastIdx "END AUTOGENERATED API DOCUMENTATION"
      ((["intro", "BEGIN AUTOGENERATED API DOCUMENTATION", "old",
         "END AUTOGENERATED API DOCUMENTATION", "tail"] : List String).map pystrip)
      = some 3 ∧
    (1 : Nat) ≠ 3 ∧
    (insert_api_docs ["DOCS"]
        ["intro", "BEGIN AUTOGENERATED API DOCUMENTATION", "old",
         "END AUTOGENERATED API DOCUMENTATION", "tail"]
        "BEGIN AUTOGENERATED API DOCUMENTATION"
        "END AUTOGENERATED API DOCUMENTATION"
      = .ok (some (pyjoin "\n"
          [pystrip (pyjoin "\n" (((["intro", "BEGIN AUTOGENERATED API DOCUMENTATION",
              "old", "END AUTOGENERATED API DOCUMENTATION", "tail"] : List String).map
                pystrip).take (1 + 1))),
           pyjoin "\n" ["DOCS"],
           pystrip (pyjoin "\n" (((["intro", "BEGIN AUTOGENERATED API DOCUMENTATION",
              "old", "END AUTOGENERATED API DOCUMENTATION", "tail"] : List String).map
                pystrip).drop 3))])) ∧
     ((∀ l ∈ (["intro", "BEGIN AUTOGENERATED API DOCUMENTATION", "old",
         "END AUTOGENERATED API DOCUMENTATION", "tail"] : List String),
         pystrip l = l ∧ l ≠ "" ∧ '\n' ∉ l.toList) →
       splitNlStr (pyjoin "\n"
          [pystrip (pyjoin "\n" (((["intro", "BEGIN AUTOGENERATED API DOCUMENTATION",
              "old", "END AUTOGENERATED API DOCUMENTATION", "tail"] : List String).map
                pystrip).take (1 + 1))),
           pyjoin "\n" ["DOCS"],
           pystrip (pyjoin "\n" (((["intro", "BEGIN AUTOGENERATED API DOCUMENTATION",
              "old", "END AUTOGENERATED API DOCUMENTATION", "tail"] : List String).map
                pystrip).drop 3))])
         = (["intro", "BEGIN AUTOGENERATED API DOCUMENTATION", "old",
             "END AUTOGENERATED API DOCUMENTATION", "tail"] : List String).take (1 + 1)
             ++ splitNlStr (pyjoin "\n" ["DOCS"])
             ++ (["intro", "BEGIN AUTOGENERATED API DOCUMENTATION", "old",
                 "END AUTOGENERATED API DOCUMENTATION", "tail"] : List String).drop 3)) :=
  ⟨by simp, rfl, rfl, by decide,
   insert_api_docs_frame ["DOCS"]
     ["intro", "BEGIN AUTOGENERATED API DOCUMENTATION", "old",
      "END AUTOGENERATED API DOCUMENTATION", "tail"]
     "BEGIN AUTOGENERATED API DOCUMENTATION"
     "END AUTOGENERATED API DOCUMENTATION" 1 3 (by simp) rfl rfl (by decide)⟩

end Docs
